import Mathlib

/-!
Verification of the RocketMonitor Pi-side detection-and-durable-capture
pipeline, shallowly embedded from the Python sources:

* `pi/src/data_buffer.py` — `RingBuffer` (deque with maxlen, time-window query)
* `pi/src/analyzer.py`    — `AltitudeAnalyzer.analyze` state machine
* `pi/src/main.py`        — the sampling-driver tick (`AltitudeMonitor.run`)
* `pi/src/database.py`    — `DatabaseManager` write worker, offline fallback,
  resync sweep and device-identity cache

Timestamps and altitudes are modelled as rationals (`ℚ`); Python `None`
becomes `Option`.  Sensor readings (`SensorReader.read`) always carry a
timestamp (`datetime.now()`), so `timestamp` is a plain field; the numeric
measurement fields may be absent.
-/

namespace RocketMonitor

/-- A sensor reading as produced by `SensorReader.read`: the timestamp is
always present, the measured fields are `None` on a failed physical read. -/
structure Reading where
  timestamp : ℚ
  temperature : Option ℚ
  pressure : Option ℚ
  altitude : Option ℚ
deriving DecidableEq, Repr

/-! ## Ring buffer (`data_buffer.py`) -/

/-- `RingBuffer.add`: `deque(maxlen=size).append` — append on the right,
evicting the oldest entries on the left once the capacity is exceeded. -/
def ring_add (size : Nat) (buf : List Reading) (r : Reading) : List Reading :=
  let b := buf ++ [r]
  b.drop (b.length - size)

/-- `RingBuffer.get_all`: `list(self.buffer)` — a snapshot of the whole
buffer in insertion order. -/
def get_all (buf : List Reading) : List Reading := buf

/-- `RingBuffer.get_last_n_seconds`: returns `[]` on an empty buffer,
otherwise iterates the buffer **reversed** and keeps every reading whose
timestamp is `≥ now - seconds` (the `data.get('timestamp')` truthiness
check is vacuous here because every reading carries a timestamp). -/
def get_last_n_seconds (buf : List Reading) (now seconds : ℚ) : List Reading :=
  if buf = [] then []
  else buf.reverse.filter (fun d => now - seconds ≤ d.timestamp)

/-! ## Change detector (`analyzer.py`) -/

/-- The altitudes of the valid readings of a window:
`[d["altitude"] for d in comparison_data if d["altitude"] is not None]`. -/
def valid_altitudes_in (l : List Reading) : List ℚ :=
  l.filterMap (·.altitude)

/-- `sum(valid_altitudes) / len(valid_altitudes)`. -/
def list_mean (l : List ℚ) : ℚ :=
  l.sum / (l.length : ℚ)

/-- The configuration fields `AltitudeAnalyzer.__init__` reads.
`min_samples` is `min_samples_for_comparison =
int(comparison_window_seconds * sample_rate_hz * 0.5)`, kept abstract. -/
structure AnalyzerConfig where
  threshold_meters : ℚ
  comparison_window : ℚ
  stabilization_time : ℚ
  min_samples : Nat
deriving DecidableEq, Repr

/-- The mutable state of `AltitudeAnalyzer` (the source field `initialized`
is called `inited` here). -/
structure AnalyzerState where
  inited : Bool
  recording : Bool
  last_significant_change : Option ℚ
  stable_since : Option ℚ
  recording_buffer : List Reading
  recording_start_time : Option ℚ
deriving DecidableEq, Repr

/-- The `(recording_changed, data_to_save)` pair returned by `analyze`,
together with the updated detector state. -/
structure AnalyzeResult where
  state : AnalyzerState
  recording_changed : Bool
  data_to_save : Option (List Reading)
deriving DecidableEq, Repr

/-- The "Auch bei ungültiger Messung / falls aufzeichnend, füge Daten hinzu"
pattern: append the current reading to the recording buffer iff recording. -/
def append_if_recording (s : AnalyzerState) (current : Reading) : AnalyzerState :=
  if s.recording then
    { s with recording_buffer := s.recording_buffer ++ [current] }
  else s

/-- The tail of `AltitudeAnalyzer.analyze` once `altitude_change` has been
computed (source lines 134–185): append the current reading to the
recording buffer if recording, then branch on the change against the
threshold (start / continue) or, below threshold while recording, on the
stabilization state (first stable tick / flush / keep waiting). -/
def detect (cfg : AnalyzerConfig) (s : AnalyzerState) (buf : List Reading)
    (current : Reading) (altitude_change now : ℚ) : AnalyzeResult :=
  let s := append_if_recording s current
  if cfg.threshold_meters ≤ altitude_change then
    let s := { s with last_significant_change := some now, stable_since := none }
    if ¬ s.recording then
      -- start recording: seed with `ring_buffer.get_all()` plus `current`
      ⟨{ s with recording := true,
                recording_start_time := some now,
                recording_buffer := get_all buf ++ [current] }, true, none⟩
    else
      ⟨s, false, none⟩
  else
    if s.recording then
      match s.stable_since with
      | none => ⟨{ s with stable_since := some now }, false, none⟩
      | some t =>
        if cfg.stabilization_time ≤ now - t then
          -- stable long enough: stop recording and hand off the buffer
          ⟨{ s with recording := false,
                    recording_buffer := [],
                    recording_start_time := none }, true, some s.recording_buffer⟩
        else
          ⟨s, false, none⟩
    else
      ⟨s, false, none⟩

/-- `AltitudeAnalyzer.analyze(current_data)`, one tick.  `buf` is the ring
buffer contents at call time (the driver has already appended `current` to
the ring buffer before calling `analyze`, see `driver_step`), `now` is
`time.time()` during the call.  Faithful to the source's control flow:
invalid reading → append-if-recording and return; initialization gate;
empty window or no valid altitudes → append-if-recording and return;
otherwise compare `|current - mean|` against the threshold (`detect`). -/
def analyze (cfg : AnalyzerConfig) (s : AnalyzerState) (buf : List Reading)
    (current : Reading) (now : ℚ) : AnalyzeResult :=
  match current.altitude with
  | none => ⟨append_if_recording s current, false, none⟩
  | some current_altitude =>
    let comparison_data := get_last_n_seconds buf now cfg.comparison_window
    if ¬ s.inited ∧ (valid_altitudes_in comparison_data).length < cfg.min_samples then
      ⟨s, false, none⟩
    else
      let s := { s with inited := true }
      if comparison_data = [] then
        ⟨append_if_recording s current, false, none⟩
      else
        let valid_altitudes := valid_altitudes_in comparison_data
        if valid_altitudes = [] then
          ⟨append_if_recording s current, false, none⟩
        else
          let reference_altitude := list_mean valid_altitudes
          detect cfg s buf current |current_altitude - reference_altitude| now

/-- The altitude change a valid tick is judged by: distance of the current
altitude from the mean of the valid altitudes in the comparison window. -/
def window_change (cfg : AnalyzerConfig) (buf : List Reading) (now a : ℚ) : ℚ :=
  |a - list_mean (valid_altitudes_in (get_last_n_seconds buf now cfg.comparison_window))|

/-! ## Sampling driver tick (`main.py`, `AltitudeMonitor.run`) -/

/-- Ring buffer plus detector, the state the main loop threads through. -/
structure DriverState where
  buf : List Reading
  analyzer : AnalyzerState
deriving DecidableEq, Repr

/-- One iteration of the main loop for an initialized sensor:
`ring_buffer.add(current_data)` **then**
`altitude_analyzer.analyze(current_data)`. -/
def driver_step (cfg : AnalyzerConfig) (size : Nat) (ds : DriverState)
    (current : Reading) (now : ℚ) : DriverState × AnalyzeResult :=
  let buf := ring_add size ds.buf current
  let res := analyze cfg ds.analyzer buf current now
  (⟨buf, res.state⟩, res)

/-- Iterated main-loop ticks: fold `driver_step` over a list of
`(reading, now)` pairs, collecting every flushed episode group in order
(`if status_changed and data_to_save: save_data(data_to_save)`). -/
def run_driver (cfg : AnalyzerConfig) (size : Nat) (ds : DriverState)
    (ticks : List (Reading × ℚ)) : DriverState × List (List Reading) :=
  ticks.foldl
    (fun p tick =>
      let (ds', res) := driver_step cfg size p.1 tick.1 tick.2
      (ds', p.2 ++ (if res.recording_changed then res.data_to_save.toList else [])))
    (ds, [])

/-! ## Durable store with offline fallback (`database.py`)

The `DatabaseManager` threads (write worker, resync task) are modelled as
a serialized sequence of atomic steps; the environment each step runs in
(connection reachable?  what would the identity query return?  does the
bulk insert succeed?) is an explicit input.  Event-group ids, which the
source derives from a microsecond timestamp string, are abstract `Nat`s. -/

/-- One serialized sample inside an offline fallback file (`_save_offline`
writes only valid samples, tagged with the event group and the producing
device's configured name). -/
structure OfflineItem where
  timestamp : ℚ
  temperature : Option ℚ
  pressure : Option ℚ
  altitude : ℚ
  event_group : Nat
  raspberry_name : String
deriving DecidableEq, Repr

/-- A durable row of the altitude-events table (the insert tuple of
`_save_to_database` and `_sync_offline_data`). -/
structure Row where
  timestamp : ℚ
  temperature : Option ℚ
  pressure : Option ℚ
  altitude : ℚ
  event_group : Nat
  raspberry_pi_id : Nat
deriving DecidableEq, Repr

/-- A fallback file `<event_group>.json` holding one episode group. -/
structure FallbackFile where
  fname : Nat
  items : List OfflineItem
deriving DecidableEq, Repr

/-- The `DatabaseManager` state the claims depend on: the identity cache
(`id_found`, `raspberry_id`), the fallback directory (files listed
oldest-first, i.e. by creation time), and the durable table.  `lost` is a
ghost trace of the event groups whose fallback file the retention cleanup
`_clean_offline_files` deleted. -/
structure DbmState where
  id_found : Bool
  raspberry_id : Option Nat
  files : List FallbackFile
  durable : List Row
  lost : List Nat
deriving DecidableEq, Repr

/-- The environment one worker/resync step observes: whether the database
is reachable, what the identity lookup would return, and whether a bulk
insert would succeed (it raises a `mysql.connector.Error` otherwise). -/
structure Env where
  connected : Bool
  lookup_result : Option Nat
  write_ok : Bool
deriving DecidableEq, Repr

/-- `_get_raspberry_pi_id`: return the cached id if one was ever found
(`id_found and raspberry_id is not None`); otherwise, when a connection is
available, query the database, caching a successful lookup permanently and
leaving the cache untouched on an unsuccessful one.  Returns
`(result, (id_found, raspberry_id) cache afterwards, queried?)`. -/
def get_raspberry_pi_id (id_found : Bool) (raspberry_id : Option Nat)
    (connected : Bool) (lookup_result : Option Nat) :
    Option Nat × (Bool × Option Nat) × Bool :=
  if id_found = true ∧ raspberry_id.isSome then (raspberry_id, (id_found, raspberry_id), false)
  else if ¬ connected then (none, (id_found, raspberry_id), false)
  else
    match lookup_result with
    | some i => (some i, (true, some i), true)
    | none => (none, (id_found, raspberry_id), true)

/-- The rows `_save_to_database` prepares: one per **valid** (altitude
present) sample of the group; invalid samples are dropped here. -/
def rows_of (data : List Reading) (event_group rid : Nat) : List Row :=
  data.filterMap (fun d =>
    d.altitude.map (fun a => ⟨d.timestamp, d.temperature, d.pressure, a, event_group, rid⟩))

/-- The serialized items `_save_offline` prepares: one per valid sample,
tagged with the configured device name. -/
def items_of (data : List Reading) (event_group : Nat) (name : String) : List OfflineItem :=
  data.filterMap (fun d =>
    d.altitude.map (fun a => ⟨d.timestamp, d.temperature, d.pressure, a, event_group, name⟩))

/-- The row `_sync_offline_data` rebuilds from a fallback item, tagging it
with the currently resolved raspberry id. -/
def item_to_row (rid : Nat) (it : OfflineItem) : Row :=
  ⟨it.timestamp, it.temperature, it.pressure, it.altitude, it.event_group, rid⟩

/-- `_clean_offline_files`: delete the oldest files while more than
`max_files` remain.  Returns `(kept, deleted)`. -/
def clean_offline_files (max_files : Nat) (files : List FallbackFile) :
    List FallbackFile × List FallbackFile :=
  (files.drop (files.length - max_files), files.take (files.length - max_files))

/-- `_save_offline(data_list, event_group)`: serialize only the valid
samples; if none survive, write nothing at all; otherwise create
`<event_group>.json` and run the retention cleanup, whose deletions are
recorded in the ghost `lost` trace. -/
def save_offline (max_files : Nat) (name : String) (st : DbmState)
    (data : List Reading) (event_group : Nat) : DbmState :=
  let items := items_of data event_group name
  if items = [] then st
  else
    let cleaned := clean_offline_files max_files (st.files ++ [⟨event_group, items⟩])
    { st with files := cleaned.1, lost := st.lost ++ cleaned.2.map (·.fname) }

/-- `_save_to_database(data_list, event_group, raspberry_id)`: bulk-insert
one row per valid sample in a single transaction; write nothing at all
when no sample is valid; on a database error (`write_ok = false`) fall
back to `_save_offline` with the same `data_list`. -/
def save_to_database (max_files : Nat) (name : String) (st : DbmState)
    (env : Env) (data : List Reading) (event_group rid : Nat) : DbmState :=
  let values := rows_of data event_group rid
  if values = [] then st
  else if env.write_ok then { st with durable := st.durable ++ values }
  else save_offline max_files name st data event_group

/-- One iteration of the `_process_save_queue` worker on a dequeued
`(data_list, event_group)`: resolve the device identity (cached after the
first success), then write to the database when both an id and a
connection are available, otherwise route the same group to the offline
fallback. -/
def process_save_item (max_files : Nat) (name : String) (st : DbmState)
    (env : Env) (data : List Reading) (event_group : Nat) : DbmState :=
  let r := get_raspberry_pi_id st.id_found st.raspberry_id env.connected env.lookup_result
  let st := { st with id_found := r.2.1.1, raspberry_id := r.2.1.2 }
  match r.1 with
  | some rid =>
    if env.connected then save_to_database max_files name st env data event_group rid
    else save_offline max_files name st data event_group
  | none => save_offline max_files name st data event_group

/-- What `_sync_offline_data` does with one (parseable) fallback file:
delete an empty file without inserting; skip — keep untouched, insert
nothing — a file whose first record's device name differs from this
process's configured name; otherwise bulk-insert every item tagged with
the currently resolved id and delete the file on success, keeping it on a
write error.  Returns `(file if kept, rows inserted)`. -/
def sync_file (name : String) (rid : Nat) (write_ok : Bool) (f : FallbackFile) :
    Option FallbackFile × List Row :=
  match f.items with
  | [] => (none, [])
  | it :: _ =>
    if it.raspberry_name ≠ name then (some f, [])
    else if write_ok then (none, f.items.map (item_to_row rid))
    else (some f, [])

/-- The `for file_path in files` loop of `_sync_offline_data`: process each
file with `sync_file`, re-listing kept files and appending inserted rows. -/
def sync_fold (name : String) (rid : Nat) (write_ok : Bool)
    (acc : DbmState) (files : List FallbackFile) : DbmState :=
  files.foldl
    (fun acc f =>
      let pr := sync_file name rid write_ok f
      { acc with files := acc.files ++ pr.1.toList, durable := acc.durable ++ pr.2 })
    acc

/-- One resync sweep (the body of the `_sync_offline_data` loop after its
sleep): do nothing unless the identity resolves and the store is
reachable; otherwise process every fallback file in order with
`sync_file`. -/
def sync_sweep (name : String) (st : DbmState) (env : Env) : DbmState :=
  let r := get_raspberry_pi_id st.id_found st.raspberry_id env.connected env.lookup_result
  let st := { st with id_found := r.2.1.1, raspberry_id := r.2.1.2 }
  match r.1 with
  | none => st
  | some rid =>
    if ¬ env.connected then st
    else sync_fold name rid env.write_ok { st with files := [] } st.files

/-- An observable step of the durable-store subsystem: the write worker
dequeues one episode group, or the resync task runs one sweep. -/
inductive DbEvent
  | save (env : Env) (data : List Reading) (event_group : Nat)
  | sweep (env : Env)
deriving Repr

/-- Dispatch one event. -/
def db_step (max_files : Nat) (name : String) (st : DbmState) : DbEvent → DbmState
  | .save env data g => process_save_item max_files name st env data g
  | .sweep env => sync_sweep name st env

/-- Run a serialized trace of worker and resync steps. -/
def run_db (max_files : Nat) (name : String) (st : DbmState)
    (evs : List DbEvent) : DbmState :=
  evs.foldl (db_step max_files name) st

/-- The episode groups a trace hands to the store, in order. -/
def saved_groups : List DbEvent → List (Nat × List Reading)
  | [] => []
  | .save _ data g :: evs => (g, data) :: saved_groups evs
  | .sweep _ :: evs => saved_groups evs

/-- The pristine `DatabaseManager` state: identity never resolved, no
fallback files, empty table. -/
def dbm0 : DbmState := ⟨false, none, [], [], []⟩

/-! ## Concrete fixtures for counterexamples and witnesses -/

/-- A fully valid reading at time `t` with altitude `a`. -/
def mkReading (t a : ℚ) : Reading := ⟨t, some 20, some 1000, some a⟩

/-- Threshold 1 m, 5 s comparison window, 1 s stabilization. -/
def cfgA : AnalyzerConfig := ⟨1, 5, 1, 2⟩

/-- An armed (initialized, idle) detector state. -/
def armedState : AnalyzerState := ⟨true, false, none, none, [], none⟩

/-- Five constant-altitude readings (100 m) at seconds 10–14. -/
def constBuf : List Reading :=
  [mkReading 10 100, mkReading 11 100, mkReading 12 100, mkReading 13 100, mkReading 14 100]

/-- A three-tick scenario: trigger (102 m at t = 15 against the 100 m
baseline), then two stable readings at 100 m; with `cfgA` the second
stable tick flushes the episode. -/
def cexTicks : List (Reading × ℚ) :=
  [(mkReading 15 102, 15), (mkReading 16 100, 16), (mkReading 17 100, 17)]

/-- Ring buffer contents right after the trigger tick appended its reading. -/
def trigBuf : List Reading := constBuf ++ [mkReading 15 102]

/-- The episode seed: the whole buffer snapshot (which already contains the
trigger, appended by the driver) plus the trigger again. -/
def seedBuf : List Reading := trigBuf ++ [mkReading 15 102]

/-- Detector state after the trigger tick. -/
def recSt1 : AnalyzerState := ⟨true, true, some 15, none, seedBuf, some 15⟩

/-- Ring buffer after the first stable tick. -/
def buf2 : List Reading := trigBuf ++ [mkReading 16 100]

/-- Detector state after the first stable tick (`stable_since = 16`). -/
def recSt2 : AnalyzerState := ⟨true, true, some 15, some 16, seedBuf ++ [mkReading 16 100], some 15⟩

/-- Ring buffer after the flush tick. -/
def buf3 : List Reading := buf2 ++ [mkReading 17 100]

/-- The episode group flushed on the third tick. -/
def flushedGroup : List Reading := seedBuf ++ [mkReading 16 100, mkReading 17 100]

/-- Detector state after the flush tick: note `stable_since` is still 16. -/
def endSt : AnalyzerState := ⟨true, false, some 15, some 16, [], none⟩

/-- A fallback file recorded by a different device (`"other-device"`). -/
def foreignFile : FallbackFile := ⟨7, [⟨1, some 20, some 1000, 100, 7, "other-device"⟩]⟩

/-- The environment of a durable-store event. -/
def event_env : DbEvent → Env
  | .save env _ _ => env
  | .sweep env => env

/-- The groups a list of events hands to the worker, as `(id, data)` pairs
(definitionally `saved_groups`, spelled out for folding proofs). -/
def new_groups : DbEvent → List (Nat × List Reading)
  | .save _ data g => [(g, data)]
  | .sweep _ => []

/-- "The group `(g, data)` is durably present exactly once, or still
pending in exactly one fallback file": either the rows tagged `g` are
exactly the group's valid-sample rows and no fallback file is keyed `g`,
or no row is tagged `g` and exactly one fallback file holds the group's
serialized valid samples. -/
def GroupOk (name : String) (rid0 : Nat) (durable : List Row) (files : List FallbackFile)
    (g : Nat) (data : List Reading) : Prop :=
  (durable.filter (fun r => r.event_group = g) = rows_of data g rid0
    ∧ files.filter (fun f => f.fname = g) = [])
  ∨ (durable.filter (fun r => r.event_group = g) = []
    ∧ files.filter (fun f => f.fname = g) = [⟨g, items_of data g name⟩])

/-- The inductive invariant of the store-with-fallback subsystem: the
identity cache only ever holds the true id; every handed-over group is in
the `GroupOk` state; every fallback file is the canonical serialization of
some handed-over group; every durable row is tagged with a handed-over
group. -/
def SyncInv (name : String) (rid0 : Nat) (saved : List (Nat × List Reading))
    (st : DbmState) : Prop :=
  (st.id_found = true → st.raspberry_id = some rid0)
  ∧ (∀ gd ∈ saved, GroupOk name rid0 st.durable st.files gd.1 gd.2)
  ∧ (∀ f ∈ st.files, ∃ gd ∈ saved, f = ⟨gd.1, items_of gd.2 gd.1 name⟩)
  ∧ (∀ r ∈ st.durable, ∃ gd ∈ saved, r.event_group = gd.1)

/-- An environment with the database unreachable. -/
def envOff : Env := ⟨false, some 1, true⟩

/-- A fully healthy environment: reachable, identity resolves to 1,
writes succeed. -/
def envOn : Env := ⟨true, some 1, true⟩

/-! # Helper lemmas -/

theorem inited_update_eq (s : AnalyzerState) (hi : s.inited = true) :
    ({ s with inited := true } : AnalyzerState) = s := by
  rw [← hi]

/-- Under the armed-tick hypotheses (detector initialized, current reading
valid, at least one valid altitude in the comparison window), `analyze`
reduces to `detect` applied to the window change. -/
theorem analyze_eq_detect (cfg : AnalyzerConfig) (s : AnalyzerState) (buf : List Reading)
    (current : Reading) (now a : ℚ)
    (hi : s.inited = true) (ha : current.altitude = some a)
    (hv : valid_altitudes_in (get_last_n_seconds buf now cfg.comparison_window) ≠ []) :
    analyze cfg s buf current now
      = detect cfg s buf current (window_change cfg buf now a) now := by
  have hcd : get_last_n_seconds buf now cfg.comparison_window ≠ [] := by
    intro h
    exact hv (by simp [valid_altitudes_in, h])
  simp only [analyze, ha, hi, not_true, Bool.true_eq_false, false_and, if_false,
    inited_update_eq s hi, hcd, hv, if_neg, window_change]

/-! # Claim C6 — recent-window query -/

/-- **C6 (amended).**  For every buffer state and window length,
`get_last_n_seconds` returns exactly the subset of buffered readings whose
timestamp is `≥ now − w` — but in **reverse-chronological** order (it
iterates `reversed(self.buffer)`), not chronological; on an empty buffer
it returns the empty sequence (the `filter` of `[]` is `[]`). -/
theorem C6_recent_window (buf : List Reading) (now w : ℚ) :
    get_last_n_seconds buf now w
      = (buf.filter (fun d => now - w ≤ d.timestamp)).reverse := by
  by_cases h : buf = [] <;> simp [get_last_n_seconds, h, List.filter_reverse]

/-- **C6, counterexample.**  A two-reading buffer, both readings inside the
window: the query returns them newest-first, not in chronological order as
the claim states. -/
theorem C6_counterexample :
    get_last_n_seconds [mkReading 1 100, mkReading 2 100] 2 5
        = [mkReading 2 100, mkReading 1 100]
    ∧ [mkReading 1 100, mkReading 2 100].filter (fun d => (2:ℚ) - 5 ≤ d.timestamp)
        = [mkReading 1 100, mkReading 2 100]
    ∧ get_last_n_seconds [mkReading 1 100, mkReading 2 100] 2 5
        ≠ [mkReading 1 100, mkReading 2 100] := by
  refine ⟨?_, ?_, ?_⟩ <;> norm_num [get_last_n_seconds, mkReading, List.filter, List.cons_ne_nil]

/-! # Claim C2 — episode-start condition -/

/-- **C2 (amended).**  For an initialized, not-recording detector and a
valid reading, the driver tick starts an episode **iff**
`|altitude − mean(valid altitudes in the comparison window)| ≥ threshold`,
where the comparison window is taken over the ring buffer **after** the
driver has appended the current reading to it — so the window's mean
already includes the current reading itself. -/
theorem C2_start_iff (cfg : AnalyzerConfig) (size : Nat) (ds : DriverState)
    (current : Reading) (now a : ℚ)
    (hi : ds.analyzer.inited = true) (hr : ds.analyzer.recording = false)
    (ha : current.altitude = some a)
    (hv : valid_altitudes_in (get_last_n_seconds (ring_add size ds.buf current) now
            cfg.comparison_window) ≠ []) :
    ((driver_step cfg size ds current now).2.state.recording = true
        ∧ (driver_step cfg size ds current now).2.recording_changed = true)
      ↔ cfg.threshold_meters ≤ window_change cfg (ring_add size ds.buf current) now a := by
  have h := analyze_eq_detect cfg ds.analyzer (ring_add size ds.buf current) current now a hi ha hv
  by_cases hc : cfg.threshold_meters ≤ window_change cfg (ring_add size ds.buf current) now a <;>
    simp [driver_step, h, detect, append_if_recording, hr, hc]

/-- **C2, witness.**  Constant 100 m baseline, current reading 102 m at
`t = 15`: the window mean (current included) is `602/6`, the change `5/3`
exceeds the 1 m threshold, and the episode starts. -/
theorem C2_start_iff_witness :
    (driver_step cfgA 100 ⟨constBuf, armedState⟩ (mkReading 15 102) 15).2.state.recording = true
    ∧ (driver_step cfgA 100 ⟨constBuf, armedState⟩ (mkReading 15 102) 15).2.recording_changed
        = true := by
  have h := C2_start_iff cfgA 100 ⟨constBuf, armedState⟩ (mkReading 15 102) 15 102
    rfl rfl rfl
    (by norm_num [ring_add, get_last_n_seconds, valid_altitudes_in, constBuf, mkReading, cfgA,
      List.filterMap_cons, List.filterMap_nil, List.cons_ne_nil, List.filter])
  exact h.2
    (by norm_num [window_change, ring_add, get_last_n_seconds, valid_altitudes_in, list_mean,
      constBuf, mkReading, cfgA, abs, le_sup_iff, List.filter, List.cons_ne_nil,
      List.filterMap_cons, List.filterMap_nil, List.sum_cons, List.sum_nil])

/-- **C2, counterexample.**  Constant 100 m stream, one reading offset by
exactly `threshold_meters = 1` relative to the running mean (100) of the
prior comparison window: the claim says this tick starts an episode, but
because the driver pre-appends the reading, the window mean is `601/6` and
the change `5/6 < 1`, so no episode starts. -/
theorem C2_counterexample :
    list_mean (valid_altitudes_in constBuf) = 100
    ∧ |(101:ℚ) - list_mean (valid_altitudes_in constBuf)| = cfgA.threshold_meters
    ∧ (driver_step cfgA 100 ⟨constBuf, armedState⟩ (mkReading 15 101) 15).2.state.recording
        = false
    ∧ (driver_step cfgA 100 ⟨constBuf, armedState⟩ (mkReading 15 101) 15).2.recording_changed
        = false := by
  refine ⟨?_, ?_, ?_, ?_⟩ <;>
    norm_num [driver_step, analyze, detect, get_last_n_seconds, valid_altitudes_in, list_mean,
      ring_add, append_if_recording, mkReading, cfgA, armedState, constBuf, get_all, abs,
      List.filter, List.cons_ne_nil,
      List.filterMap_cons, List.filterMap_nil, List.sum_cons, List.sum_nil, le_sup_iff]

/-! # Claim C3 — stabilization timer -/

/-- **C3.**  While recording, on a valid tick judged against the window:
an above-threshold change resets `stable_since` to none and keeps the
episode open; the first sub-threshold tick sets `stable_since := now`; a
sub-threshold tick with `now − stable_since ≥ stabilization_time` closes
the episode and hands off the buffer; an earlier sub-threshold tick leaves
`stable_since` untouched and the episode open. -/
theorem C3_stabilization (cfg : AnalyzerConfig) (s : AnalyzerState) (buf : List Reading)
    (current : Reading) (now a : ℚ)
    (hi : s.inited = true) (hr : s.recording = true)
    (ha : current.altitude = some a)
    (hv : valid_altitudes_in (get_last_n_seconds buf now cfg.comparison_window) ≠ []) :
    (cfg.threshold_meters ≤ window_change cfg buf now a →
        (analyze cfg s buf current now).state.stable_since = none
        ∧ (analyze cfg s buf current now).state.recording = true
        ∧ (analyze cfg s buf current now).data_to_save = none)
    ∧ (window_change cfg buf now a < cfg.threshold_meters → s.stable_since = none →
        (analyze cfg s buf current now).state.stable_since = some now
        ∧ (analyze cfg s buf current now).state.recording = true
        ∧ (analyze cfg s buf current now).data_to_save = none)
    ∧ (∀ t, window_change cfg buf now a < cfg.threshold_meters → s.stable_since = some t →
        cfg.stabilization_time ≤ now - t →
        (analyze cfg s buf current now).state.recording = false
        ∧ (analyze cfg s buf current now).recording_changed = true
        ∧ (analyze cfg s buf current now).data_to_save = some (s.recording_buffer ++ [current]))
    ∧ (∀ t, window_change cfg buf now a < cfg.threshold_meters → s.stable_since = some t →
        now - t < cfg.stabilization_time →
        (analyze cfg s buf current now).state.recording = true
        ∧ (analyze cfg s buf current now).state.stable_since = some t
        ∧ (analyze cfg s buf current now).data_to_save = none) := by
  rw [analyze_eq_detect cfg s buf current now a hi ha hv]
  refine ⟨fun hc => ?_, fun hc hst => ?_, fun t hc hst hel => ?_, fun t hc hst hel => ?_⟩
  · simp [detect, append_if_recording, hr, hc]
  · simp [detect, append_if_recording, hr, not_le.mpr hc, hst]
  · simp [detect, append_if_recording, hr, not_le.mpr hc, hst, hel]
  · simp [detect, append_if_recording, hr, not_le.mpr hc, hst, not_le.mpr hel]

/-- **C3, witness.**  A recording detector with `stable_since = 16`, a
stable 100 m reading at `t = 17` and a 1 s stabilization time: the episode
closes and hands off the accumulated buffer plus the current reading. -/
theorem C3_stabilization_witness :
    (analyze cfgA ⟨true, true, some 15, some 16, [mkReading 15 102], some 15⟩
        [mkReading 16 100, mkReading 17 100] (mkReading 17 100) 17).state.recording = false
    ∧ (analyze cfgA ⟨true, true, some 15, some 16, [mkReading 15 102], some 15⟩
        [mkReading 16 100, mkReading 17 100] (mkReading 17 100) 17).recording_changed = true
    ∧ (analyze cfgA ⟨true, true, some 15, some 16, [mkReading 15 102], some 15⟩
        [mkReading 16 100, mkReading 17 100] (mkReading 17 100) 17).data_to_save
        = some [mkReading 15 102, mkReading 17 100] := by
  have h := C3_stabilization cfgA ⟨true, true, some 15, some 16, [mkReading 15 102], some 15⟩
    [mkReading 16 100, mkReading 17 100] (mkReading 17 100) 17 100 rfl rfl rfl
    (by norm_num [get_last_n_seconds, valid_altitudes_in, mkReading, cfgA,
      List.filterMap_cons, List.filterMap_nil, List.cons_ne_nil, List.filter])
  have h3 := h.2.2.1 16
    (by norm_num [window_change, get_last_n_seconds, valid_altitudes_in, list_mean,
      mkReading, cfgA, abs, List.filter, List.cons_ne_nil, sup_lt_iff,
      List.filterMap_cons, List.filterMap_nil, List.sum_cons, List.sum_nil])
    rfl (by norm_num [cfgA])
  exact ⟨h3.1, h3.2.1, h3.2.2⟩

/-! # Claim C9 — state reset at episode end -/

/-- **C9 (amended).**  On the tick that ends an episode, `analyze` hands
off the accumulated samples (including the current reading) and resets the
recording flag, the recording buffer and the recording start time — but it
does **not** reset `stable_since`, which keeps its last value (it is only
cleared again on the next above-threshold tick, which necessarily precedes
the next episode start, so the detector still behaves correctly). -/
theorem C9_flush_state (cfg : AnalyzerConfig) (s : AnalyzerState) (buf : List Reading)
    (current : Reading) (now a t : ℚ)
    (hi : s.inited = true) (hr : s.recording = true)
    (ha : current.altitude = some a)
    (hv : valid_altitudes_in (get_last_n_seconds buf now cfg.comparison_window) ≠ [])
    (hst : s.stable_since = some t)
    (hc : window_change cfg buf now a < cfg.threshold_meters)
    (hel : cfg.stabilization_time ≤ now - t) :
    analyze cfg s buf current now
      = ⟨{ s with recording := false, recording_buffer := [], recording_start_time := none },
          true, some (s.recording_buffer ++ [current])⟩
    ∧ (analyze cfg s buf current now).state.stable_since = some t := by
  rw [analyze_eq_detect cfg s buf current now a hi ha hv]
  constructor <;> simp [detect, append_if_recording, hr, not_le.mpr hc, hst, hel]

/-- **C9, witness.**  The flush tick of the concrete scenario from the C3
witness: the returned state has `stable_since` still set to 16. -/
theorem C9_flush_state_witness :
    analyze cfgA ⟨true, true, some 15, some 16, [mkReading 15 102], some 15⟩
        [mkReading 16 100, mkReading 17 100] (mkReading 17 100) 17
      = ⟨⟨true, false, some 15, some 16, [], none⟩, true,
          some [mkReading 15 102, mkReading 17 100]⟩ := by
  have h := C9_flush_state cfgA ⟨true, true, some 15, some 16, [mkReading 15 102], some 15⟩
    [mkReading 16 100, mkReading 17 100] (mkReading 17 100) 17 100 16 rfl rfl rfl
    (by norm_num [get_last_n_seconds, valid_altitudes_in, mkReading, cfgA,
      List.filterMap_cons, List.filterMap_nil, List.cons_ne_nil, List.filter])
    rfl
    (by norm_num [window_change, get_last_n_seconds, valid_altitudes_in, list_mean,
      mkReading, cfgA, abs, List.filter, List.cons_ne_nil, sup_lt_iff,
      List.filterMap_cons, List.filterMap_nil, List.sum_cons, List.sum_nil])
    (by norm_num [cfgA])
  exact h.1

/-- Tick 1 of the concrete scenario: the 102 m reading triggers an episode
whose seed contains the trigger twice (once from the buffer snapshot, once
appended explicitly). -/
theorem cex_tick1 :
    driver_step cfgA 100 ⟨constBuf, armedState⟩ (mkReading 15 102) 15
      = (⟨trigBuf, recSt1⟩, ⟨recSt1, true, none⟩) := by
  norm_num [driver_step, analyze, detect, get_last_n_seconds, valid_altitudes_in, list_mean,
    ring_add, append_if_recording, mkReading, cfgA, armedState, constBuf, get_all, abs,
    trigBuf, seedBuf, recSt1, List.filter, List.cons_ne_nil, le_sup_iff, sup_lt_iff,
    List.filterMap_cons, List.filterMap_nil, List.sum_cons, List.sum_nil]

/-- Tick 2: first stable reading, `stable_since` set to 16. -/
theorem cex_tick2 :
    driver_step cfgA 100 ⟨trigBuf, recSt1⟩ (mkReading 16 100) 16
      = (⟨buf2, recSt2⟩, ⟨recSt2, false, none⟩) := by
  norm_num [driver_step, analyze, detect, get_last_n_seconds, valid_altitudes_in, list_mean,
    ring_add, append_if_recording, mkReading, cfgA, armedState, constBuf, get_all, abs,
    trigBuf, seedBuf, recSt1, buf2, recSt2, List.filter, List.cons_ne_nil, le_sup_iff,
    sup_lt_iff, List.filterMap_cons, List.filterMap_nil, List.sum_cons, List.sum_nil]

/-- Tick 3: one second of stability has elapsed, the episode flushes. -/
theorem cex_tick3 :
    driver_step cfgA 100 ⟨buf2, recSt2⟩ (mkReading 17 100) 17
      = (⟨buf3, endSt⟩, ⟨endSt, true, some flushedGroup⟩) := by
  norm_num [driver_step, analyze, detect, get_last_n_seconds, valid_altitudes_in, list_mean,
    ring_add, append_if_recording, mkReading, cfgA, armedState, constBuf, get_all, abs,
    trigBuf, seedBuf, recSt2, buf2, buf3, endSt, flushedGroup, List.filter, List.cons_ne_nil,
    le_sup_iff, sup_lt_iff, List.filterMap_cons, List.filterMap_nil, List.sum_cons, List.sum_nil]

/-- The whole three-tick run, assembled from the tick lemmas. -/
theorem cex_run :
    run_driver cfgA 100 ⟨constBuf, armedState⟩ cexTicks = (⟨buf3, endSt⟩, [flushedGroup]) := by
  simp [run_driver, cexTicks, List.foldl_cons, List.foldl_nil, cex_tick1, cex_tick2, cex_tick3]

/-- **C9, counterexample.**  Running the three-tick scenario from a fresh
armed detector: the final tick flushes the episode (`recording = false`,
one group emitted), yet `stable_since` is `some 16`, not none as the claim
states. -/
theorem C9_counterexample :
    (run_driver cfgA 100 ⟨constBuf, armedState⟩ cexTicks).1.analyzer.recording = false
    ∧ (run_driver cfgA 100 ⟨constBuf, armedState⟩ cexTicks).1.analyzer.stable_since = some 16
    ∧ (run_driver cfgA 100 ⟨constBuf, armedState⟩ cexTicks).1.analyzer.stable_since ≠ none
    ∧ (run_driver cfgA 100 ⟨constBuf, armedState⟩ cexTicks).2.length = 1 := by
  simp [cex_run, endSt]

/-! # Claim C4 — episode sample accumulation -/

/-- **C4 (amended).**  (1) When a driver tick starts an episode, the sample
list is seeded with the **entire** ring-buffer snapshot — which, because
the driver appends the current reading before calling `analyze`, already
contains the triggering reading — plus the triggering reading appended
once more, so the trigger appears twice.  (2) Every tick while recording
appends the current reading (valid or invalid) to the episode buffer, and
the flushed group is exactly the accumulated buffer plus the final
reading. -/
theorem C4_accumulation (cfg : AnalyzerConfig) :
    (∀ (size : Nat) (ds : DriverState) (current : Reading) (now a : ℚ),
        ds.analyzer.inited = true → ds.analyzer.recording = false →
        current.altitude = some a →
        valid_altitudes_in (get_last_n_seconds (ring_add size ds.buf current) now
          cfg.comparison_window) ≠ [] →
        cfg.threshold_meters ≤ window_change cfg (ring_add size ds.buf current) now a →
        (driver_step cfg size ds current now).2.state.recording_buffer
          = get_all (ring_add size ds.buf current) ++ [current])
    ∧ (∀ (s : AnalyzerState) (buf : List Reading) (current : Reading) (now : ℚ),
        s.inited = true → s.recording = true →
        (((analyze cfg s buf current now).data_to_save = none →
            (analyze cfg s buf current now).state.recording_buffer
              = s.recording_buffer ++ [current])
          ∧ ∀ d, (analyze cfg s buf current now).data_to_save = some d →
              d = s.recording_buffer ++ [current]
              ∧ (analyze cfg s buf current now).state.recording_buffer = [])) := by
  constructor
  · intro size ds current now a hi hr ha hv hc
    have h := analyze_eq_detect cfg ds.analyzer (ring_add size ds.buf current) current now a
      hi ha hv
    simp [driver_step, h, detect, append_if_recording, hr, hc]
  · intro s buf current now hi hr
    rcases hva : current.altitude with _ | a
    · simp [analyze, hva, append_if_recording, hr]
    · by_cases hv : valid_altitudes_in (get_last_n_seconds buf now cfg.comparison_window) = []
      · have hcd : get_last_n_seconds buf now cfg.comparison_window = []
            ∨ get_last_n_seconds buf now cfg.comparison_window ≠ [] := by tauto
        simp only [analyze, hva, hi, not_true, Bool.true_eq_false, false_and, if_false,
          inited_update_eq s hi, hv]
        rcases hcd with hcd | hcd <;> simp [hcd, append_if_recording, hr]
      · rw [analyze_eq_detect cfg s buf current now a hi hva hv]
        by_cases hc : cfg.threshold_meters ≤ window_change cfg buf now a
        · simp [detect, append_if_recording, hr, hc]
        · rcases hst : s.stable_since with _ | t
          · simp [detect, append_if_recording, hr, hc, hst]
          · by_cases hel : cfg.stabilization_time ≤ now - t <;>
              simp [detect, append_if_recording, hr, hc, hst, hel]

/-- **C4, witness.**  The concrete trigger tick: the new episode buffer is
the whole post-append ring buffer plus the trigger again. -/
theorem C4_accumulation_witness :
    (driver_step cfgA 100 ⟨constBuf, armedState⟩ (mkReading 15 102) 15).2.state.recording_buffer
      = get_all (ring_add 100 constBuf (mkReading 15 102)) ++ [mkReading 15 102] := by
  exact (C4_accumulation cfgA).1 100 ⟨constBuf, armedState⟩ (mkReading 15 102) 15 102
    rfl rfl rfl
    (by norm_num [ring_add, get_last_n_seconds, valid_altitudes_in, constBuf, mkReading, cfgA,
      List.filterMap_cons, List.filterMap_nil, List.cons_ne_nil, List.filter])
    (by norm_num [window_change, ring_add, get_last_n_seconds, valid_altitudes_in, list_mean,
      constBuf, mkReading, cfgA, abs, le_sup_iff, List.filter, List.cons_ne_nil,
      List.filterMap_cons, List.filterMap_nil, List.sum_cons, List.sum_nil])

/-- **C4, counterexample.**  In the three-tick scenario the single flushed
group contains the triggering reading **twice** (the pre-event buffer
snapshot already included it when it was re-appended), so the group is not
"exactly the buffered pre-event samples plus all readings from the
triggering jump through the stabilization period", in which every reading
would occur once. -/
theorem C4_counterexample :
    (run_driver cfgA 100 ⟨constBuf, armedState⟩ cexTicks).2 = [flushedGroup]
    ∧ flushedGroup.count (mkReading 15 102) = 2
    ∧ constBuf.count (mkReading 15 102) = 0
    ∧ cexTicks.count (mkReading 15 102, 15) = 1 := by
  refine ⟨by simp [cex_run], ?_, ?_, ?_⟩ <;>
    norm_num [flushedGroup, seedBuf, trigBuf, constBuf, cexTicks, mkReading, List.count_cons,
      List.count_nil, Reading.mk.injEq, Prod.mk.injEq]

/-! # Helper lemmas about the durable-store model -/

theorem save_offline_id_found (max_files : Nat) (name : String) (st : DbmState)
    (data : List Reading) (g : Nat) :
    (save_offline max_files name st data g).id_found = st.id_found := by
  simp only [save_offline]
  split <;> simp

theorem save_offline_raspberry_id (max_files : Nat) (name : String) (st : DbmState)
    (data : List Reading) (g : Nat) :
    (save_offline max_files name st data g).raspberry_id = st.raspberry_id := by
  simp only [save_offline]
  split <;> simp

theorem save_offline_durable (max_files : Nat) (name : String) (st : DbmState)
    (data : List Reading) (g : Nat) :
    (save_offline max_files name st data g).durable = st.durable := by
  simp only [save_offline]
  split <;> simp

theorem save_to_database_id_found (max_files : Nat) (name : String) (st : DbmState)
    (env : Env) (data : List Reading) (g rid : Nat) :
    (save_to_database max_files name st env data g rid).id_found = st.id_found := by
  simp only [save_to_database]
  split
  · rfl
  · split
    · rfl
    · exact save_offline_id_found ..

theorem save_to_database_raspberry_id (max_files : Nat) (name : String) (st : DbmState)
    (env : Env) (data : List Reading) (g rid : Nat) :
    (save_to_database max_files name st env data g rid).raspberry_id = st.raspberry_id := by
  simp only [save_to_database]
  split
  · rfl
  · split
    · rfl
    · exact save_offline_raspberry_id ..

/-- Closed form of the resync loop: kept files are the `filterMap` of the
per-file outcomes, inserted rows the concatenation of the per-file rows. -/
theorem sync_fold_eq (name : String) (rid : Nat) (wk : Bool) (acc : DbmState)
    (files : List FallbackFile) :
    sync_fold name rid wk acc files
      = { acc with
          files := acc.files ++ files.filterMap (fun f => (sync_file name rid wk f).1),
          durable := acc.durable ++ files.flatMap (fun f => (sync_file name rid wk f).2) } := by
  induction files generalizing acc with
  | nil => simp [sync_fold]
  | cons f fs ih =>
      simp only [sync_fold, List.foldl_cons] at ih ⊢
      rw [ih]
      rcases h : (sync_file name rid wk f).1 with _ | kept <;>
        simp [h, List.filterMap_cons, List.flatMap_cons, List.append_assoc]

/-- Serializing a group offline and re-inserting it later rebuilds exactly
the rows a direct write would have produced with the same resolved id. -/
theorem items_map_row (data : List Reading) (g rid : Nat) (name : String) :
    (items_of data g name).map (item_to_row rid) = rows_of data g rid := by
  induction data with
  | nil => rfl
  | cons d ds ih =>
      rcases h : d.altitude with _ | a <;>
        simp [items_of, rows_of, List.filterMap_cons, h, item_to_row, ih] <;>
        simpa [items_of, rows_of] using ih

theorem items_of_eq_nil_iff (data : List Reading) (g : Nat) (name : String) :
    items_of data g name = [] ↔ ∀ d ∈ data, d.altitude = none := by
  induction data with
  | nil => simp [items_of]
  | cons d ds ih =>
      rcases h : d.altitude with _ | a
      · simp [items_of, List.filterMap_cons, h, ih]
      · simp [items_of, List.filterMap_cons, h]

/-- When the directory has room, `_save_offline` appends exactly one new
file and the retention cleanup deletes nothing. -/
theorem save_offline_append (max_files : Nat) (name : String) (st : DbmState)
    (data : List Reading) (g : Nat)
    (hvalid : items_of data g name ≠ [])
    (hcap : st.files.length < max_files) :
    (save_offline max_files name st data g).files
        = st.files ++ [⟨g, items_of data g name⟩]
    ∧ (save_offline max_files name st data g).lost = st.lost := by
  have hlen : st.files.length + 1 - max_files = 0 := by omega
  simp [save_offline, hvalid, clean_offline_files, hlen]

/-! # Claim C10 — only valid samples are persisted -/

/-- **C10.**  Both the direct write (`_save_to_database`) and the offline
write (`_save_offline`) persist one row/item per sample whose altitude is
present; samples with absent altitude are dropped (restricting the group
to its valid samples changes nothing), and a group with no valid sample at
all writes nothing: no rows are inserted and no fallback file is created
(the state is completely unchanged). -/
theorem C10_valid_only (max_files : Nat) (name : String) (st : DbmState) (env : Env)
    (data : List Reading) (g rid : Nat) :
    rows_of (data.filter (fun d => d.altitude.isSome)) g rid = rows_of data g rid
    ∧ items_of (data.filter (fun d => d.altitude.isSome)) g name = items_of data g name
    ∧ (rows_of data g rid).length = (data.filter (fun d => d.altitude.isSome)).length
    ∧ ((∀ d ∈ data, d.altitude = none) →
        save_to_database max_files name st env data g rid = st
        ∧ save_offline max_files name st data g = st) := by
  have hitems : ∀ data : List Reading,
      items_of (data.filter (fun d => d.altitude.isSome)) g name = items_of data g name := by
    intro l
    induction l with
    | nil => rfl
    | cons d ds ih =>
        rcases h : d.altitude with _ | a
        · simpa [items_of, List.filter_cons, List.filterMap_cons, h] using ih
        · simpa [items_of, List.filter_cons, List.filterMap_cons, h] using ih
  have hlen : (rows_of data g rid).length = (data.filter (fun d => d.altitude.isSome)).length := by
    induction data with
    | nil => rfl
    | cons d ds ih =>
        rcases h : d.altitude with _ | a
        · simpa [rows_of, List.filter_cons, List.filterMap_cons, h] using ih
        · simpa [rows_of, List.filter_cons, List.filterMap_cons, h] using ih
  have hrows : rows_of (data.filter (fun d => d.altitude.isSome)) g rid = rows_of data g rid := by
    rw [← items_map_row _ _ _ name, ← items_map_row _ _ _ name, hitems]
  refine ⟨hrows, hitems data, hlen, fun hnone => ?_⟩
  have hinil : items_of data g name = [] := (items_of_eq_nil_iff data g name).2 hnone
  have hrnil : rows_of data g rid = [] := by
    rw [← items_map_row _ _ _ name, hinil]
    rfl
  constructor
  · simp [save_to_database, hrnil]
  · simp [save_offline, hinil]

/-- **C10, witness.**  A one-sample group whose only reading has no
altitude: neither write changes the state at all. -/
theorem C10_valid_only_witness :
    save_to_database 1000 "RaspberryPi-1" dbm0 ⟨true, some 1, true⟩
        [⟨1, some 20, some 1000, none⟩] 5 1 = dbm0
    ∧ save_offline 1000 "RaspberryPi-1" dbm0 [⟨1, some 20, some 1000, none⟩] 5 = dbm0 := by
  exact (C10_valid_only 1000 "RaspberryPi-1" dbm0 ⟨true, some 1, true⟩
    [⟨1, some 20, some 1000, none⟩] 5 1).2.2.2 (by simp)

/-! # Claim C7 — device-identity resolution is monotone -/

/-- **C7.**  Once a lookup has returned an id, it is cached for the process
lifetime: every later resolution returns the cached id without querying,
and both the write worker and the resync sweep preserve the cache.  While
no id has ever been found, every resolution request made with a live
connection queries the database again — an unsuccessful lookup leaves the
cache unchanged (no negative caching), and without a connection no query
happens but the cache is also unchanged. -/
theorem C7_identity_cache :
    (∀ (found : Bool) (cached : Option Nat) (connected : Bool) (lookup : Option Nat) (i : Nat),
        found = true → cached = some i →
        get_raspberry_pi_id found cached connected lookup = (some i, (found, cached), false))
    ∧ (∀ (cached lookup : Option Nat),
        (get_raspberry_pi_id false cached true lookup).2.2 = true)
    ∧ (∀ (cached lookup : Option Nat),
        get_raspberry_pi_id false cached false lookup = (none, (false, cached), false))
    ∧ (∀ (cached : Option Nat) (i : Nat),
        get_raspberry_pi_id false cached true (some i) = (some i, (true, some i), true))
    ∧ (∀ (cached : Option Nat),
        get_raspberry_pi_id false cached true none = (none, (false, cached), true))
    ∧ (∀ (max_files : Nat) (name : String) (st : DbmState) (env : Env)
          (data : List Reading) (g i : Nat),
        st.id_found = true → st.raspberry_id = some i →
        (process_save_item max_files name st env data g).id_found = true
        ∧ (process_save_item max_files name st env data g).raspberry_id = some i)
    ∧ (∀ (name : String) (st : DbmState) (env : Env) (i : Nat),
        st.id_found = true → st.raspberry_id = some i →
        (sync_sweep name st env).id_found = true
        ∧ (sync_sweep name st env).raspberry_id = some i) := by
  have hcached : ∀ (found : Bool) (cached : Option Nat) (connected : Bool)
      (lookup : Option Nat) (i : Nat), found = true → cached = some i →
      get_raspberry_pi_id found cached connected lookup = (some i, (found, cached), false) := by
    intro found cached connected lookup i hf hc
    subst hf; subst hc
    simp [get_raspberry_pi_id]
  refine ⟨hcached, ?_, ?_, ?_, ?_, ?_, ?_⟩
  · intro cached lookup
    rcases lookup with _ | i <;> simp [get_raspberry_pi_id]
  · intro cached lookup
    simp [get_raspberry_pi_id]
  · intro cached i
    simp [get_raspberry_pi_id]
  · intro cached
    simp [get_raspberry_pi_id]
  · intro max_files name st env data g i hf hc
    simp only [process_save_item,
      hcached st.id_found st.raspberry_id env.connected env.lookup_result i hf hc]
    rcases henv : env.connected with _ | _ <;>
      simp [henv, save_offline_id_found, save_offline_raspberry_id,
        save_to_database_id_found, save_to_database_raspberry_id, hf, hc]
  · intro name st env i hf hc
    simp only [sync_sweep,
      hcached st.id_found st.raspberry_id env.connected env.lookup_result i hf hc]
    rcases henv : env.connected with _ | _ <;>
      simp [henv, sync_fold_eq, hf, hc]

/-- **C7, witness.**  A resolved cache (id 3) survives a write-worker step
run against a dead connection, without any re-query. -/
theorem C7_identity_cache_witness :
    get_raspberry_pi_id true (some 3) false none = (some 3, (true, some 3), false)
    ∧ (process_save_item 1000 "RaspberryPi-1"
          ⟨true, some 3, [], [], []⟩ ⟨false, none, true⟩ [mkReading 1 100] 5).id_found = true
    ∧ (process_save_item 1000 "RaspberryPi-1"
          ⟨true, some 3, [], [], []⟩ ⟨false, none, true⟩ [mkReading 1 100] 5).raspberry_id
        = some 3 := by
  refine ⟨C7_identity_cache.1 true (some 3) false none 3 rfl rfl, ?_, ?_⟩
  · exact (C7_identity_cache.2.2.2.2.2.1 1000 "RaspberryPi-1"
      ⟨true, some 3, [], [], []⟩ ⟨false, none, true⟩ [mkReading 1 100] 5 3 rfl rfl).1
  · exact (C7_identity_cache.2.2.2.2.2.1 1000 "RaspberryPi-1"
      ⟨true, some 3, [], [], []⟩ ⟨false, none, true⟩ [mkReading 1 100] 5 3 rfl rfl).2

/-! # Claim C8 — fallback ownership isolation -/

/-- **C8.**  A fallback record whose stored device name (its first item's
`raspberry_name`) differs from this process's configured name is never
inserted by the resync task — `sync_file` returns no rows — and the file
itself survives every resync sweep untouched. -/
theorem C8_ownership (name : String) (rid : Nat) (wk : Bool) (f : FallbackFile)
    (it : OfflineItem) (rest : List OfflineItem)
    (hitems : f.items = it :: rest) (hname : it.raspberry_name ≠ name) :
    sync_file name rid wk f = (some f, [])
    ∧ ∀ (st : DbmState) (env : Env), f ∈ st.files → f ∈ (sync_sweep name st env).files := by
  have hsf : ∀ (rid' : Nat) (wk' : Bool), sync_file name rid' wk' f = (some f, []) := by
    intro rid' wk'
    simp [sync_file, hitems, hname]
  refine ⟨hsf rid wk, fun st env hmem => ?_⟩
  unfold sync_sweep
  rcases hm : (get_raspberry_pi_id st.id_found st.raspberry_id env.connected
      env.lookup_result).1 with _ | rid'
  · simpa [hm] using hmem
  · simp only [hm]
    split
    · simpa using hmem
    · rw [sync_fold_eq]
      simp only [List.mem_append]
      right
      exact List.mem_filterMap.2 ⟨f, hmem, by rw [hsf rid' env.write_ok]⟩

/-- **C8, witness.**  A concrete foreign-device file in the directory of a
process named `RaspberryPi-1`: the sweep inserts nothing from it and keeps
it. -/
theorem C8_ownership_witness :
    sync_file "RaspberryPi-1" 1 true foreignFile = (some foreignFile, [])
    ∧ foreignFile ∈ (sync_sweep "RaspberryPi-1"
        ⟨false, none, [foreignFile], [], []⟩ ⟨true, some 1, true⟩).files := by
  have h := C8_ownership "RaspberryPi-1" 1 true foreignFile
    ⟨1, some 20, some 1000, 100, 7, "other-device"⟩ [] rfl (by decide)
  exact ⟨h.1, h.2 ⟨false, none, [foreignFile], [], []⟩ ⟨true, some 1, true⟩ (by simp)⟩

/-! # Claim C5 — every write-worker failure mode degrades to fallback -/

/-- **C5.**  For a dequeued group with at least one valid sample (and room
in the fallback directory), each failure mode of the write worker — no
database connection, device identity unresolved, or a database error
during the bulk write — makes the step equal to routing the very same
group through `_save_offline`, and the group's fallback file is present in
the resulting state rather than dropped. -/
theorem C5_failure_routing (max_files : Nat) (name : String) (st : DbmState) (env : Env)
    (data : List Reading) (g : Nat)
    (hvalid : items_of data g name ≠ [])
    (hcap : st.files.length < max_files) :
    (env.connected = false →
        process_save_item max_files name st env data g = save_offline max_files name st data g
        ∧ (⟨g, items_of data g name⟩ : FallbackFile)
            ∈ (process_save_item max_files name st env data g).files)
    ∧ (st.id_found = false → env.connected = true → env.lookup_result = none →
        process_save_item max_files name st env data g = save_offline max_files name st data g
        ∧ (⟨g, items_of data g name⟩ : FallbackFile)
            ∈ (process_save_item max_files name st env data g).files)
    ∧ (∀ i, st.id_found = true → st.raspberry_id = some i →
        env.connected = true → env.write_ok = false →
        process_save_item max_files name st env data g = save_offline max_files name st data g
        ∧ (⟨g, items_of data g name⟩ : FallbackFile)
            ∈ (process_save_item max_files name st env data g).files) := by
  have hmem : (⟨g, items_of data g name⟩ : FallbackFile)
      ∈ (save_offline max_files name st data g).files := by
    rw [(save_offline_append max_files name st data g hvalid hcap).1]
    simp
  refine ⟨fun hnc => ?_, fun hnf hc hl => ?_, fun i hf hri hc hw => ?_⟩
  · have heq : process_save_item max_files name st env data g
        = save_offline max_files name st data g := by
      by_cases hcache : st.id_found = true ∧ st.raspberry_id.isSome
      · obtain ⟨hf, hsome⟩ := hcache
        obtain ⟨i, hi⟩ := Option.isSome_iff_exists.1 hsome
        have hG : get_raspberry_pi_id st.id_found st.raspberry_id false
            env.lookup_result = (some i, (st.id_found, st.raspberry_id), false) := by
          simp [get_raspberry_pi_id, hf, hi]
        simp [process_save_item, hnc, hG]
      · have hG : get_raspberry_pi_id st.id_found st.raspberry_id false
            env.lookup_result = (none, (st.id_found, st.raspberry_id), false) := by
          simp [get_raspberry_pi_id, hcache]
        simp [process_save_item, hnc, hG]
    exact ⟨heq, heq ▸ hmem⟩
  · have hG : get_raspberry_pi_id st.id_found st.raspberry_id true
        none = (none, (st.id_found, st.raspberry_id), true) := by
      simp [get_raspberry_pi_id, hnf]
    have heq : process_save_item max_files name st env data g
        = save_offline max_files name st data g := by
      simp [process_save_item, hc, hl, hG]
    exact ⟨heq, heq ▸ hmem⟩
  · have hG : get_raspberry_pi_id st.id_found st.raspberry_id true
        env.lookup_result = (some i, (st.id_found, st.raspberry_id), false) := by
      simp [get_raspberry_pi_id, hf, hri]
    have hrows : rows_of data g i ≠ [] := by
      rw [← items_map_row data g i name]
      intro hmapnil
      exact hvalid (List.map_eq_nil_iff.mp hmapnil)
    have heq : process_save_item max_files name st env data g
        = save_offline max_files name st data g := by
      simp [process_save_item, hc, hG, save_to_database, hrows, hw]
    exact ⟨heq, heq ▸ hmem⟩

/-- **C5, witness.**  A one-valid-sample group processed with the database
unreachable: the step equals the fallback write and the group's file is in
the fallback directory afterwards. -/
theorem C5_failure_routing_witness :
    process_save_item 1000 "RaspberryPi-1" dbm0 ⟨false, none, true⟩ [mkReading 1 100] 5
      = save_offline 1000 "RaspberryPi-1" dbm0 [mkReading 1 100] 5
    ∧ (⟨5, items_of [mkReading 1 100] 5 "RaspberryPi-1"⟩ : FallbackFile)
        ∈ (process_save_item 1000 "RaspberryPi-1" dbm0 ⟨false, none, true⟩
            [mkReading 1 100] 5).files := by
  exact (C5_failure_routing 1000 "RaspberryPi-1" dbm0 ⟨false, none, true⟩ [mkReading 1 100] 5
    (by simp [items_of, mkReading, List.filterMap_cons])
    (by simp [dbm0])).1 rfl

/-! # Helper lemmas for the C1 trace argument -/

theorem saved_groups_cons (e : DbEvent) (evs : List DbEvent) :
    saved_groups (e :: evs) = new_groups e ++ saved_groups evs := by
  cases e <;> rfl

theorem saved_groups_append (l1 l2 : List DbEvent) :
    saved_groups (l1 ++ l2) = saved_groups l1 ++ saved_groups l2 := by
  induction l1 with
  | nil => rfl
  | cons e es ih => simp [saved_groups_cons, ih, List.append_assoc]

theorem rows_of_event_group (data : List Reading) (g rid : Nat) :
    ∀ r ∈ rows_of data g rid, r.event_group = g := by
  induction data with
  | nil => simp [rows_of]
  | cons d ds ih =>
      rcases h : d.altitude with _ | a <;>
        simp only [rows_of, List.filterMap_cons, h, Option.map_none, Option.map_some] <;>
        simp only [rows_of] at ih
      · exact ih
      · intro r hr
        rcases List.mem_cons.1 hr with hr | hr
        · subst hr; rfl
        · exact ih r hr

theorem items_of_fields (data : List Reading) (g : Nat) (name : String) :
    ∀ x ∈ items_of data g name, x.event_group = g ∧ x.raspberry_name = name := by
  induction data with
  | nil => simp [items_of]
  | cons d ds ih =>
      rcases h : d.altitude with _ | a <;>
        simp only [items_of, List.filterMap_cons, h, Option.map_none, Option.map_some] <;>
        simp only [items_of] at ih
      · exact ih
      · intro x hx
        rcases List.mem_cons.1 hx with hx | hx
        · subst hx; exact ⟨rfl, rfl⟩
        · exact ih x hx

theorem rows_of_ne_nil (data : List Reading) (g rid : Nat) (name : String)
    (h : items_of data g name ≠ []) : rows_of data g rid ≠ [] := by
  rw [← items_map_row data g rid name]
  simpa [List.map_eq_nil_iff] using h

theorem save_offline_lost_prefix (max_files : Nat) (name : String) (st : DbmState)
    (data : List Reading) (g : Nat) :
    ∃ l, (save_offline max_files name st data g).lost = st.lost ++ l := by
  simp only [save_offline]
  split
  · exact ⟨[], by simp⟩
  · exact ⟨_, rfl⟩

theorem save_to_database_lost_prefix (max_files : Nat) (name : String) (st : DbmState)
    (env : Env) (data : List Reading) (g rid : Nat) :
    ∃ l, (save_to_database max_files name st env data g rid).lost = st.lost ++ l := by
  simp only [save_to_database]
  split
  · exact ⟨[], by simp⟩
  · split
    · exact ⟨[], by simp⟩
    · exact save_offline_lost_prefix ..

theorem process_save_item_lost_prefix (max_files : Nat) (name : String) (st : DbmState)
    (env : Env) (data : List Reading) (g : Nat) :
    ∃ l, (process_save_item max_files name st env data g).lost = st.lost ++ l := by
  simp only [process_save_item]
  rcases (get_raspberry_pi_id st.id_found st.raspberry_id env.connected env.lookup_result).1
    with _ | rid
  all_goals try exact save_offline_lost_prefix ..
  by_cases hc : env.connected = true
  · simp only [hc, if_true]
    exact save_to_database_lost_prefix ..
  · simp only [hc, if_false]
    exact save_offline_lost_prefix ..

theorem sync_sweep_lost (name : String) (st : DbmState) (env : Env) :
    (sync_sweep name st env).lost = st.lost := by
  simp only [sync_sweep]
  rcases (get_raspberry_pi_id st.id_found st.raspberry_id env.connected env.lookup_result).1
    with _ | rid
  all_goals try rfl
  by_cases hc : env.connected = true
  · simp [hc, sync_fold_eq]
  · simp [hc]

theorem db_step_lost_prefix (max_files : Nat) (name : String) (st : DbmState) (e : DbEvent) :
    ∃ l, (db_step max_files name st e).lost = st.lost ++ l := by
  cases e with
  | save env data g => exact process_save_item_lost_prefix ..
  | sweep env => exact ⟨[], by simp [db_step, sync_sweep_lost]⟩

theorem run_db_lost_prefix (max_files : Nat) (name : String) (evs : List DbEvent)
    (st : DbmState) :
    ∃ l, (run_db max_files name st evs).lost = st.lost ++ l := by
  induction evs generalizing st with
  | nil => exact ⟨[], by simp [run_db]⟩
  | cons e es ih =>
      obtain ⟨l1, h1⟩ := db_step_lost_prefix max_files name st e
      obtain ⟨l2, h2⟩ := ih (db_step max_files name st e)
      exact ⟨l1 ++ l2, by
        simp only [run_db, List.foldl_cons] at h2 ⊢
        rw [h2, h1, List.append_assoc]⟩

theorem filter_eg_self (l : List Row) (g : Nat) (h : ∀ r ∈ l, r.event_group = g) :
    l.filter (fun r => r.event_group = g) = l := by
  rw [List.filter_eq_self]
  intro a ha
  simp [h a ha]

theorem filter_eg_nil (l : List Row) (g : Nat) (h : ∀ r ∈ l, r.event_group ≠ g) :
    l.filter (fun r => r.event_group = g) = [] := by
  rw [List.filter_eq_nil_iff]
  intro a ha
  simp [h a ha]

theorem filter_fname_nil (l : List FallbackFile) (g : Nat) (h : ∀ f ∈ l, f.fname ≠ g) :
    l.filter (fun f => f.fname = g) = [] := by
  rw [List.filter_eq_nil_iff]
  intro a ha
  simp [h a ha]

/-- Updating only the identity cache preserves the invariant as long as the
new cache is honest. -/
theorem SyncInv_cache (name : String) (rid0 : Nat) (saved : List (Nat × List Reading))
    (st : DbmState) (b : Bool) (r : Option Nat)
    (hinv : SyncInv name rid0 saved st) (hcache : b = true → r = some rid0) :
    SyncInv name rid0 saved { st with id_found := b, raspberry_id := r } :=
  ⟨hcache, hinv.2.1, hinv.2.2.1, hinv.2.2.2⟩

/-- Committing a fresh group's rows to the durable table preserves the
invariant, putting the new group into the durably-present state. -/
theorem SyncInv_insert_durable (name : String) (rid0 : Nat)
    (saved : List (Nat × List Reading)) (st : DbmState) (g : Nat) (data : List Reading)
    (hinv : SyncInv name rid0 saved st)
    (hnew : g ∉ saved.map Prod.fst) :
    SyncInv name rid0 (saved ++ [(g, data)])
      { st with durable := st.durable ++ rows_of data g rid0 } := by
  obtain ⟨ha, hb, hc, hd⟩ := hinv
  have hdnil : st.durable.filter (fun r => r.event_group = g) = [] := by
    refine filter_eg_nil _ _ (fun r hr => ?_)
    obtain ⟨gd, hgd, heg⟩ := hd r hr
    rw [heg]
    exact fun h => hnew (h ▸ List.mem_map_of_mem Prod.fst hgd)
  have hfnil : st.files.filter (fun f => f.fname = g) = [] := by
    refine filter_fname_nil _ _ (fun f hf => ?_)
    obtain ⟨gd, hgd, hfe⟩ := hc f hf
    rw [hfe]
    exact fun h => hnew (h ▸ List.mem_map_of_mem Prod.fst hgd)
  refine ⟨ha, ?_, ?_, ?_⟩
  · intro gd hgd
    rcases List.mem_append.1 hgd with hgd | hgd
    · have hne : g ≠ gd.1 := by
        intro h
        exact hnew (h ▸ List.mem_map_of_mem Prod.fst hgd)
      have hrnil : (rows_of data g rid0).filter (fun r => r.event_group = gd.1) = [] :=
        filter_eg_nil _ _ (fun r hr => by
          rw [rows_of_event_group data g rid0 r hr]; exact hne)
      have hold := hb gd hgd
      unfold GroupOk at hold ⊢
      simpa [List.filter_append, hrnil] using hold
    · have hgd' : gd = (g, data) := by simpa using hgd
      subst hgd'
      left
      constructor
      · simp only [List.filter_append, hdnil, List.nil_append]
        exact filter_eg_self _ _ (rows_of_event_group data g rid0)
      · exact hfnil
  · intro f hf
    obtain ⟨gd, hgd, hfe⟩ := hc f hf
    exact ⟨gd, List.mem_append_left _ hgd, hfe⟩
  · intro r hr
    rcases List.mem_append.1 hr with hr | hr
    · obtain ⟨gd, hgd, heg⟩ := hd r hr
      exact ⟨gd, List.mem_append_left _ hgd, heg⟩
    · exact ⟨(g, data), List.mem_append_right _ (by simp),
        rows_of_event_group data g rid0 r hr⟩

/-- If the retention cleanup deleted nothing (ghost `lost` unchanged), the
offline save appended exactly the group's file. -/
theorem save_offline_files_of_no_loss (max_files : Nat) (name : String) (st : DbmState)
    (data : List Reading) (g : Nat)
    (hvalid : items_of data g name ≠ [])
    (hlost : (save_offline max_files name st data g).lost = st.lost) :
    (save_offline max_files name st data g).files
      = st.files ++ [⟨g, items_of data g name⟩] := by
  simp only [save_offline, clean_offline_files, if_neg hvalid] at hlost ⊢
  have hx : (List.take ((st.files ++ [(⟨g, items_of data g name⟩ : FallbackFile)]).length
        - max_files) (st.files ++ [⟨g, items_of data g name⟩])).map (·.fname) = [] := by
    refine @List.append_cancel_left _ st.lost _ _ ?_
    rw [List.append_nil]
    exact hlost
  have htake := List.map_eq_nil_iff.1 hx
  rcases List.take_eq_nil_iff.1 htake with hk | habs
  · rw [hk, List.drop_zero]
  · exact absurd habs (by simp)

/-- Routing a fresh group to the fallback (with the cleanup deleting
nothing) preserves the invariant, putting the new group into the
pending-in-fallback state. -/
theorem SyncInv_insert_offline (max_files : Nat) (name : String) (rid0 : Nat)
    (saved : List (Nat × List Reading)) (st : DbmState) (g : Nat) (data : List Reading)
    (hinv : SyncInv name rid0 saved st)
    (hnew : g ∉ saved.map Prod.fst)
    (hvalid : items_of data g name ≠ [])
    (hlost : (save_offline max_files name st data g).lost = st.lost) :
    SyncInv name rid0 (saved ++ [(g, data)]) (save_offline max_files name st data g) := by
  obtain ⟨ha, hb, hc, hd⟩ := hinv
  have hfiles := save_offline_files_of_no_loss max_files name st data g hvalid hlost
  have hdur := save_offline_durable max_files name st data g
  have hid := save_offline_id_found max_files name st data g
  have hrid := save_offline_raspberry_id max_files name st data g
  have hdnil : st.durable.filter (fun r => r.event_group = g) = [] := by
    refine filter_eg_nil _ _ (fun r hr => ?_)
    obtain ⟨gd, hgd, heg⟩ := hd r hr
    rw [heg]
    exact fun h => hnew (h ▸ List.mem_map_of_mem Prod.fst hgd)
  have hfnil : st.files.filter (fun f => f.fname = g) = [] := by
    refine filter_fname_nil _ _ (fun f hf => ?_)
    obtain ⟨gd, hgd, hfe⟩ := hc f hf
    rw [hfe]
    exact fun h => hnew (h ▸ List.mem_map_of_mem Prod.fst hgd)
  refine ⟨?_, ?_, ?_, ?_⟩
  · rw [hid, hrid]
    exact ha
  · intro gd hgd
    unfold GroupOk
    rw [hdur, hfiles]
    rcases List.mem_append.1 hgd with hgd | hgd
    · have hne : g ≠ gd.1 := by
        intro h
        exact hnew (h ▸ List.mem_map_of_mem Prod.fst hgd)
      have hone : ([(⟨g, items_of data g name⟩ : FallbackFile)]).filter
          (fun f => f.fname = gd.1) = [] := by
        refine filter_fname_nil _ _ (fun f hf => ?_)
        have : f = ⟨g, items_of data g name⟩ := by simpa using hf
        rw [this]
        exact hne
      have hold := hb gd hgd
      unfold GroupOk at hold
      simpa [List.filter_append, hone] using hold
    · have hgd' : gd = (g, data) := by simpa using hgd
      subst hgd'
      right
      refine ⟨hdnil, ?_⟩
      simp [List.filter_append, hfnil]
  · intro f hf
    rw [hfiles] at hf
    rcases List.mem_append.1 hf with hf | hf
    · obtain ⟨gd, hgd, hfe⟩ := hc f hf
      exact ⟨gd, List.mem_append_left _ hgd, hfe⟩
    · have : f = ⟨g, items_of data g name⟩ := by simpa using hf
      exact ⟨(g, data), List.mem_append_right _ (by simp), this⟩
  · intro r hr
    rw [hdur] at hr
    obtain ⟨gd, hgd, heg⟩ := hd r hr
    exact ⟨gd, List.mem_append_left _ hgd, heg⟩

/-- One write-worker iteration on a fresh group preserves the invariant
(provided the lookup environment is honest, the group has a valid sample,
and the retention cleanup deleted nothing). -/
theorem process_save_item_inv (max_files : Nat) (name : String) (rid0 : Nat)
    (saved : List (Nat × List Reading)) (st : DbmState) (env : Env)
    (data : List Reading) (g : Nat)
    (hinv : SyncInv name rid0 saved st)
    (hlk : env.lookup_result = some rid0)
    (hvalid : items_of data g name ≠ [])
    (hnew : g ∉ saved.map Prod.fst)
    (hlost : (process_save_item max_files name st env data g).lost = st.lost) :
    SyncInv name rid0 (saved ++ [(g, data)])
      (process_save_item max_files name st env data g) := by
  have hrows : rows_of data g rid0 ≠ [] := rows_of_ne_nil data g rid0 name hvalid
  by_cases hcch : st.id_found = true ∧ st.raspberry_id.isSome
  · have hri : st.raspberry_id = some rid0 := hinv.1 hcch.1
    rcases hc : env.connected with _ | _
    · have hG : get_raspberry_pi_id st.id_found st.raspberry_id false env.lookup_result
          = (some rid0, (st.id_found, st.raspberry_id), false) := by
        simp [get_raspberry_pi_id, hcch.1, hri]
      have heq : process_save_item max_files name st env data g
          = save_offline max_files name st data g := by
        simp [process_save_item, hc, hG]
      rw [heq] at hlost ⊢
      exact SyncInv_insert_offline max_files name rid0 saved st g data hinv hnew hvalid hlost
    · have hG : get_raspberry_pi_id st.id_found st.raspberry_id true env.lookup_result
          = (some rid0, (st.id_found, st.raspberry_id), false) := by
        simp [get_raspberry_pi_id, hcch.1, hri]
      rcases hw : env.write_ok with _ | _
      · have heq : process_save_item max_files name st env data g
            = save_offline max_files name st data g := by
          simp [process_save_item, hc, hG, save_to_database, hrows, hw]
        rw [heq] at hlost ⊢
        exact SyncInv_insert_offline max_files name rid0 saved st g data hinv hnew hvalid hlost
      · have heq : process_save_item max_files name st env data g
            = { st with durable := st.durable ++ rows_of data g rid0 } := by
          simp [process_save_item, hc, hG, save_to_database, hrows, hw]
        rw [heq]
        exact SyncInv_insert_durable name rid0 saved st g data hinv hnew
  · rcases hc : env.connected with _ | _
    · have hG : get_raspberry_pi_id st.id_found st.raspberry_id false env.lookup_result
          = (none, (st.id_found, st.raspberry_id), false) := by
        simp [get_raspberry_pi_id, hcch]
      have heq : process_save_item max_files name st env data g
          = save_offline max_files name st data g := by
        simp [process_save_item, hc, hG]
      rw [heq] at hlost ⊢
      exact SyncInv_insert_offline max_files name rid0 saved st g data hinv hnew hvalid hlost
    · have hG : get_raspberry_pi_id st.id_found st.raspberry_id true env.lookup_result
          = (some rid0, (true, some rid0), true) := by
        simp [get_raspberry_pi_id, hcch, hlk]
      have hinv' : SyncInv name rid0 saved
          { st with id_found := true, raspberry_id := some rid0 } :=
        SyncInv_cache name rid0 saved st true (some rid0) hinv (fun _ => rfl)
      rcases hw : env.write_ok with _ | _
      · have heq : process_save_item max_files name st env data g
            = save_offline max_files name
                { st with id_found := true, raspberry_id := some rid0 } data g := by
          simp [process_save_item, hc, hG, save_to_database, hrows, hw]
        rw [heq] at hlost ⊢
        exact SyncInv_insert_offline max_files name rid0 saved
          { st with id_found := true, raspberry_id := some rid0 } g data hinv' hnew hvalid hlost
      · have heq : process_save_item max_files name st env data g
            = { st with
                  id_found := true
                  raspberry_id := some rid0
                  durable := st.durable ++ rows_of data g rid0 } := by
          simp [process_save_item, hc, hG, save_to_database, hrows, hw]
        rw [heq]
        exact SyncInv_insert_durable name rid0 saved
          { st with id_found := true, raspberry_id := some rid0 } g data hinv' hnew

theorem filterMap_congr_mem {α β : Type} (l : List α) (f g : α → Option β)
    (h : ∀ a ∈ l, f a = g a) : l.filterMap f = l.filterMap g := by
  induction l with
  | nil => rfl
  | cons a as ih =>
      simp only [List.filterMap_cons, h a (List.mem_cons_self a as)]
      rw [ih (fun a ha => h a (List.mem_cons_of_mem _ ha))]

theorem flatMap_congr_mem {α β : Type} (l : List α) (f g : α → List β)
    (h : ∀ a ∈ l, f a = g a) : l.flatMap f = l.flatMap g := by
  induction l with
  | nil => rfl
  | cons a as ih =>
      simp only [List.flatMap_cons, h a (List.mem_cons_self a as)]
      rw [ih (fun a ha => h a (List.mem_cons_of_mem _ ha))]

/-- `sync_file` on this process's own canonical file: insert-and-delete on
a healthy write, keep on a failed one. -/
theorem sync_file_canonical (name : String) (rid : Nat) (wk : Bool) (g : Nat)
    (data : List Reading) (hvalid : items_of data g name ≠ []) :
    sync_file name rid wk (⟨g, items_of data g name⟩ : FallbackFile)
      = if wk then (none, (items_of data g name).map (item_to_row rid))
        else (some ⟨g, items_of data g name⟩, []) := by
  rcases hit : items_of data g name with _ | ⟨it, rest⟩
  · exact absurd hit hvalid
  · have hname : it.raspberry_name = name :=
      ((items_of_fields data g name) it (by rw [hit]; exact List.mem_cons_self it rest)).2
    rcases wk with _ | _ <;> simp [sync_file, hit, hname]

/-- Splitting the sweep-inserted rows by event group: only the files keyed
with that group contribute (files are canonical, so each item's group is
its file's name). -/
theorem flatMap_rows_filter (files : List FallbackFile) (rid g : Nat)
    (hcanon : ∀ f ∈ files, ∀ x ∈ f.items, x.event_group = f.fname) :
    (files.flatMap (fun f => f.items.map (item_to_row rid))).filter
        (fun r => r.event_group = g)
      = (files.filter (fun f => f.fname = g)).flatMap
          (fun f => f.items.map (item_to_row rid)) := by
  induction files with
  | nil => rfl
  | cons f fs ih =>
      have hf := hcanon f (List.mem_cons_self f fs)
      have ih' := ih (fun f' hf' x hx => hcanon f' (List.mem_cons_of_mem _ hf') x hx)
      simp only [List.flatMap_cons, List.filter_append, List.filter_cons, ih']
      by_cases hfg : f.fname = g
      · have hall : (f.items.map (item_to_row rid)).filter (fun r => r.event_group = g)
            = f.items.map (item_to_row rid) := by
          rw [List.filter_eq_self]
          intro r hr
          obtain ⟨x, hx, hxr⟩ := List.mem_map.1 hr
          subst hxr
          simp [item_to_row, hf x hx, hfg]
        simp [hfg, hall, List.flatMap_cons]
      · have hnone : (f.items.map (item_to_row rid)).filter (fun r => r.event_group = g)
            = [] := by
          rw [List.filter_eq_nil_iff]
          intro r hr
          obtain ⟨x, hx, hxr⟩ := List.mem_map.1 hr
          subst hxr
          simp [item_to_row, hf x hx, hfg]
        simp [hfg, hnone]

/-- The connected sweep loop preserves the invariant; with healthy writes
it clears the fallback directory completely. -/
theorem sync_fold_inv (name : String) (rid0 : Nat) (saved : List (Nat × List Reading))
    (st : DbmState) (wk : Bool)
    (hinv : SyncInv name rid0 saved st)
    (hvalid : ∀ gd ∈ saved, items_of gd.2 gd.1 name ≠ []) :
    SyncInv name rid0 saved (sync_fold name rid0 wk { st with files := [] } st.files)
    ∧ (wk = true → (sync_fold name rid0 wk { st with files := [] } st.files).files = []) := by
  obtain ⟨ha, hb, hc, hd⟩ := hinv
  have hsfile : ∀ f ∈ st.files,
      sync_file name rid0 wk f
        = if wk then (none, f.items.map (item_to_row rid0)) else (some f, []) := by
    intro f hf
    obtain ⟨gd, hgd, hfe⟩ := hc f hf
    subst hfe
    exact sync_file_canonical name rid0 wk gd.1 gd.2 (hvalid gd hgd)
  have hcanon : ∀ f ∈ st.files, ∀ x ∈ f.items, x.event_group = f.fname := by
    intro f hf x hx
    obtain ⟨gd, hgd, hfe⟩ := hc f hf
    subst hfe
    exact ((items_of_fields gd.2 gd.1 name) x hx).1
  rw [sync_fold_eq]
  rcases wk with _ | _
  · -- every write fails: all files kept, nothing inserted
    have hkeep : st.files.filterMap (fun f => (sync_file name rid0 false f).1) = st.files := by
      rw [filterMap_congr_mem st.files _ (fun f => some f)
        (fun f hf => by rw [hsfile f hf]; rfl)]
      simp
    have hrows : st.files.flatMap (fun f => (sync_file name rid0 false f).2) = [] := by
      rw [flatMap_congr_mem st.files _ (fun _ => [])
        (fun f hf => by rw [hsfile f hf]; rfl)]
      simp
    rw [hkeep, hrows]
    refine ⟨⟨ha, ?_, ?_, ?_⟩, by intro h; cases h⟩
    · intro gd hgd
      have := hb gd hgd
      unfold GroupOk at this ⊢
      simpa using this
    · intro f hf
      exact hc f (by simpa using hf)
    · intro r hr
      exact hd r (by simpa using hr)
  · -- healthy writes: every file is inserted and deleted
    have hkeep : st.files.filterMap (fun f => (sync_file name rid0 true f).1) = [] := by
      rw [filterMap_congr_mem st.files _ (fun _ => none)
        (fun f hf => by rw [hsfile f hf]; rfl)]
      simp
    have hrows : st.files.flatMap (fun f => (sync_file name rid0 true f).2)
        = st.files.flatMap (fun f => f.items.map (item_to_row rid0)) :=
      flatMap_congr_mem st.files _ _ (fun f hf => by rw [hsfile f hf]; rfl)
    rw [hkeep, hrows]
    refine ⟨⟨ha, ?_, ?_, ?_⟩, fun _ => by simp⟩
    · intro gd hgd
      unfold GroupOk
      simp only [List.filter_append, List.append_nil, List.filter_nil, List.nil_append]
      rw [flatMap_rows_filter st.files rid0 gd.1 hcanon]
      rcases hb gd hgd with ⟨h1, h2⟩ | ⟨h1, h2⟩
      · left
        refine ⟨?_, trivial⟩
        rw [h1, h2]
        simp
      · left
        refine ⟨?_, trivial⟩
        rw [h1, h2]
        simpa using items_map_row gd.2 gd.1 rid0 name
    · intro f hf
      simp at hf
    · intro r hr
      rcases List.mem_append.1 hr with hr' | hr'
      · exact hd r hr'
      · obtain ⟨f, hf, hrf⟩ := List.mem_flatMap.1 hr'
        obtain ⟨x, hx, hxr⟩ := List.mem_map.1 hrf
        obtain ⟨gd, hgd, hfe⟩ := hc f hf
        refine ⟨gd, hgd, ?_⟩
        subst hxr
        subst hfe
        exact (items_of_fields gd.2 gd.1 name x hx).1

/-- One resync sweep preserves the invariant; a fully healthy sweep
(reachable store, successful writes) empties the fallback directory. -/
theorem sync_sweep_inv (name : String) (rid0 : Nat) (saved : List (Nat × List Reading))
    (st : DbmState) (env : Env)
    (hinv : SyncInv name rid0 saved st)
    (hlk : env.lookup_result = some rid0)
    (hvalid : ∀ gd ∈ saved, items_of gd.2 gd.1 name ≠ []) :
    SyncInv name rid0 saved (sync_sweep name st env)
    ∧ (env.connected = true → env.write_ok = true → (sync_sweep name st env).files = []) := by
  by_cases hcch : st.id_found = true ∧ st.raspberry_id.isSome
  · have hri : st.raspberry_id = some rid0 := hinv.1 hcch.1
    rcases hc : env.connected with _ | _
    · have hG : get_raspberry_pi_id st.id_found st.raspberry_id false env.lookup_result
          = (some rid0, (st.id_found, st.raspberry_id), false) := by
        simp [get_raspberry_pi_id, hcch.1, hri]
      have heq : sync_sweep name st env = st := by
        simp [sync_sweep, hc, hG]
      rw [heq]
      exact ⟨hinv, fun h => by simp [hc] at h⟩
    · have hG : get_raspberry_pi_id st.id_found st.raspberry_id true env.lookup_result
          = (some rid0, (st.id_found, st.raspberry_id), false) := by
        simp [get_raspberry_pi_id, hcch.1, hri]
      have heq : sync_sweep name st env
          = sync_fold name rid0 env.write_ok { st with files := [] } st.files := by
        simp [sync_sweep, hc, hG]
      rw [heq]
      have h := sync_fold_inv name rid0 saved st env.write_ok hinv hvalid
      exact ⟨h.1, fun _ hw => h.2 hw⟩
  · rcases hc : env.connected with _ | _
    · have hG : get_raspberry_pi_id st.id_found st.raspberry_id false env.lookup_result
          = (none, (st.id_found, st.raspberry_id), false) := by
        simp [get_raspberry_pi_id, hcch]
      have heq : sync_sweep name st env = st := by
        simp [sync_sweep, hc, hG]
      rw [heq]
      exact ⟨hinv, fun h => by simp [hc] at h⟩
    · have hG : get_raspberry_pi_id st.id_found st.raspberry_id true env.lookup_result
          = (some rid0, (true, some rid0), true) := by
        simp [get_raspberry_pi_id, hcch, hlk]
      have hinv' : SyncInv name rid0 saved
          { st with id_found := true, raspberry_id := some rid0 } :=
        SyncInv_cache name rid0 saved st true (some rid0) hinv (fun _ => rfl)
      have heq : sync_sweep name st env
          = sync_fold name rid0 env.write_ok
              { st with id_found := true, raspberry_id := some rid0, files := [] }
              st.files := by
        simp [sync_sweep, hc, hG]
      rw [heq]
      have h := sync_fold_inv name rid0 saved
        { st with id_found := true, raspberry_id := some rid0 } env.write_ok hinv' hvalid
      exact ⟨h.1, fun _ hw => h.2 hw⟩

/-- Invariant preservation along a whole trace of worker and resync steps
whose identity lookups are honest, whose groups all have a valid sample
and pairwise distinct ids, and during which the retention cleanup never
deleted a file. -/
theorem run_db_inv (max_files : Nat) (name : String) (rid0 : Nat) :
    ∀ (evs : List DbEvent) (saved : List (Nat × List Reading)) (st : DbmState),
      SyncInv name rid0 saved st →
      (∀ e ∈ evs, (event_env e).lookup_result = some rid0) →
      (∀ gd ∈ saved ++ saved_groups evs, items_of gd.2 gd.1 name ≠ []) →
      ((saved ++ saved_groups evs).map Prod.fst).Nodup →
      (run_db max_files name st evs).lost = st.lost →
      SyncInv name rid0 (saved ++ saved_groups evs) (run_db max_files name st evs) := by
  intro evs
  induction evs with
  | nil =>
      intro saved st hinv _ _ _ _
      simpa [run_db, saved_groups] using hinv
  | cons e es ih =>
      intro saved st hinv hlk hvalid hnodup hlost
      obtain ⟨l1, h1⟩ := db_step_lost_prefix max_files name st e
      obtain ⟨l2, h2⟩ := run_db_lost_prefix max_files name es (db_step max_files name st e)
      have hrun : run_db max_files name st (e :: es)
          = run_db max_files name (db_step max_files name st e) es := rfl
      have hl12 : l1 ++ l2 = [] := by
        rw [hrun, h2, h1, List.append_assoc] at hlost
        exact List.append_cancel_left (by rw [List.append_nil]; exact hlost)
      have hstep_lost : (db_step max_files name st e).lost = st.lost := by
        rw [h1, (List.append_eq_nil.1 hl12).1, List.append_nil]
      have hrun_lost : (run_db max_files name (db_step max_files name st e) es).lost
          = (db_step max_files name st e).lost := by
        rw [h2, (List.append_eq_nil.1 hl12).2, List.append_nil]
      cases e with
      | save env data g =>
          have hmap : ((saved.map Prod.fst) ++ (g :: (saved_groups es).map Prod.fst)).Nodup := by
            simpa [saved_groups_cons, new_groups] using hnodup
          rcases List.nodup_append.1 hmap with ⟨_, _, hdisj⟩
          have hg : g ∉ saved.map Prod.fst :=
            fun hgmem => hdisj hgmem (List.mem_cons_self _ _)
          have hstep : SyncInv name rid0 (saved ++ [(g, data)])
              (db_step max_files name st (DbEvent.save env data g)) :=
            process_save_item_inv max_files name rid0 saved st env data g hinv
              (hlk _ (List.mem_cons_self _ _))
              (hvalid (g, data) (by simp [saved_groups_cons, new_groups]))
              hg hstep_lost
          have happ := ih (saved ++ [(g, data)])
            (db_step max_files name st (DbEvent.save env data g)) hstep
            (fun e he => hlk e (List.mem_cons_of_mem _ he))
            (by
              intro gd hgd
              refine hvalid gd ?_
              simpa [saved_groups_cons, new_groups, List.append_assoc] using hgd)
            (by simpa [saved_groups_cons, new_groups, List.append_assoc] using hnodup)
            hrun_lost
          rw [hrun]
          have hassoc : saved ++ saved_groups (DbEvent.save env data g :: es)
              = (saved ++ [(g, data)]) ++ saved_groups es := by
            simp [saved_groups_cons, new_groups]
          rw [hassoc]
          exact happ
      | sweep env =>
          have hstep : SyncInv name rid0 saved
              (db_step max_files name st (DbEvent.sweep env)) :=
            (sync_sweep_inv name rid0 saved st env hinv
              (hlk _ (List.mem_cons_self _ _))
              (fun gd hgd => hvalid gd (List.mem_append_left _ hgd))).1
          have happ := ih saved (db_step max_files name st (DbEvent.sweep env)) hstep
            (fun e he => hlk e (List.mem_cons_of_mem _ he))
            (by simpa [saved_groups_cons, new_groups] using hvalid)
            (by simpa [saved_groups_cons, new_groups] using hnodup)
            hrun_lost
          rw [hrun]
          have hassoc : saved ++ saved_groups (DbEvent.sweep env :: es)
              = saved ++ saved_groups es := by
            simp [saved_groups_cons, new_groups]
          rw [hassoc]
          exact happ

/-! # Claim C1 — eventually-exactly-once persistence -/

/-- **C1 (amended).**  Starting from a pristine store, run any serialized
trace of write-worker steps and resync sweeps — outages and recoveries
interleaved arbitrarily — whose identity lookups consistently answer
`rid0`, whose handed-over groups each contain a valid sample and carry
pairwise-distinct ids, and end it with one sweep in a healthy environment
(store reachable, writes succeeding).  **Provided the retention cleanup
never deleted a fallback file** (ghost `lost` trace empty — this proviso
is forced by the counterexample), the final state has no pending fallback
file and the durable table contains, for every handed-over group, exactly
that group's valid-sample rows — no loss and no duplicates. -/
theorem C1_eventual_exactly_once (max_files : Nat) (name : String) (rid0 : Nat)
    (evs : List DbEvent) (envF : Env)
    (hlk : ∀ e ∈ evs, (event_env e).lookup_result = some rid0)
    (hlkF : envF.lookup_result = some rid0)
    (hconn : envF.connected = true)
    (hwok : envF.write_ok = true)
    (hvalid : ∀ gd ∈ saved_groups evs, items_of gd.2 gd.1 name ≠ [])
    (hnodup : ((saved_groups evs).map Prod.fst).Nodup)
    (hnoloss : (run_db max_files name dbm0 (evs ++ [DbEvent.sweep envF])).lost = []) :
    (run_db max_files name dbm0 (evs ++ [DbEvent.sweep envF])).files = []
    ∧ ∀ gd ∈ saved_groups evs,
        (run_db max_files name dbm0 (evs ++ [DbEvent.sweep envF])).durable.filter
            (fun r => r.event_group = gd.1)
          = rows_of gd.2 gd.1 rid0 := by
  have hsplit : run_db max_files name dbm0 (evs ++ [DbEvent.sweep envF])
      = sync_sweep name (run_db max_files name dbm0 evs) envF := by
    simp [run_db, List.foldl_append, db_step]
  have hlost_pre : (run_db max_files name dbm0 evs).lost = [] := by
    rw [hsplit, sync_sweep_lost] at hnoloss
    exact hnoloss
  have hinv0 : SyncInv name rid0 [] dbm0 :=
    ⟨fun h => by simp [dbm0] at h, fun gd hgd => by simp at hgd,
     fun f hf => by simp [dbm0] at hf, fun r hr => by simp [dbm0] at hr⟩
  have hinv := run_db_inv max_files name rid0 evs [] dbm0 hinv0 hlk
    (by simpa using hvalid) (by simpa using hnodup) hlost_pre
  have hsw := sync_sweep_inv name rid0 ([] ++ saved_groups evs)
    (run_db max_files name dbm0 evs) envF hinv hlkF (by simpa using hvalid)
  rw [hsplit]
  refine ⟨hsw.2 hconn hwok, ?_⟩
  intro gd hgd
  have hg := hsw.1.2.1 gd (by simpa using hgd)
  have hfe := hsw.2 hconn hwok
  rcases hg with ⟨h1, _⟩ | ⟨_, h2⟩
  · exact h1
  · rw [hfe] at h2
    simp at h2

/-- **C1, witness.**  One group saved while the store is down, then one
healthy sweep: afterwards the fallback directory is empty and the durable
table holds exactly the group's row. -/
theorem C1_eventual_exactly_once_witness :
    (run_db 1000 "RaspberryPi-1" dbm0
        [DbEvent.save envOff [mkReading 1 100] 1, DbEvent.sweep envOn]).files = []
    ∧ (run_db 1000 "RaspberryPi-1" dbm0
        [DbEvent.save envOff [mkReading 1 100] 1, DbEvent.sweep envOn]).durable.filter
          (fun r => r.event_group = 1)
        = rows_of [mkReading 1 100] 1 1 := by
  have h := C1_eventual_exactly_once 1000 "RaspberryPi-1" 1
    [DbEvent.save envOff [mkReading 1 100] 1] envOn
    (by
      intro e he
      have : e = DbEvent.save envOff [mkReading 1 100] 1 := by simpa using he
      subst this
      rfl)
    rfl rfl rfl
    (by
      intro gd hgd
      have : gd = (1, [mkReading 1 100]) := by simpa [saved_groups] using hgd
      subst this
      simp [items_of, mkReading, List.filterMap_cons])
    (by simp [saved_groups, new_groups])
    (by decide)
  exact ⟨h.1, h.2 (1, [mkReading 1 100]) (by simp [saved_groups])⟩

/-- **C1, counterexample.**  With `max_offline_files = 1`, two groups
handed over during an outage and then a fully healthy sweep: every
fallback write succeeded, yet group 1's file was deleted by the retention
cleanup (`lost = [1]`), so group 1 is permanently absent from durable
storage (no fallback file remains from which any future sweep could
recover it) — the claim's "no loss" fails as stated. -/
theorem C1_counterexample :
    (run_db 1 "RaspberryPi-1" dbm0
        [DbEvent.save envOff [mkReading 1 100] 1,
         DbEvent.save envOff [mkReading 2 100] 2,
         DbEvent.sweep envOn]).durable.filter (fun r => r.event_group = 1) = []
    ∧ (run_db 1 "RaspberryPi-1" dbm0
        [DbEvent.save envOff [mkReading 1 100] 1,
         DbEvent.save envOff [mkReading 2 100] 2,
         DbEvent.sweep envOn]).files = []
    ∧ (run_db 1 "RaspberryPi-1" dbm0
        [DbEvent.save envOff [mkReading 1 100] 1,
         DbEvent.save envOff [mkReading 2 100] 2,
         DbEvent.sweep envOn]).lost = [1]
    ∧ (run_db 1 "RaspberryPi-1" dbm0
        [DbEvent.save envOff [mkReading 1 100] 1,
         DbEvent.save envOff [mkReading 2 100] 2,
         DbEvent.sweep envOn]).durable.filter (fun r => r.event_group = 2)
      = rows_of [mkReading 2 100] 2 1 := by
  refine ⟨?_, ?_, ?_, ?_⟩ <;> decide

end RocketMonitor
